import Mathlib

/-! # Robo-advisor backend: the analysis pipeline of `src/server/server.js`

A shallow embedding of `sanitizeInput`, `runPrediction` and the
`POST /api/analyze` handler, with the ECMAScript built-ins they call
(`String.prototype.replace` with a global regular expression, `substring`,
`trim`, `JSON.parse`, property access and `||`).

JavaScript strings are sequences of UTF-16 code units; every operation used by
the program works code unit by code unit, so a string is a list of code units.
-/

namespace RoboAdvisor

/-! ## Strings -/

/-- A UTF-16 code unit. -/
abbrev CodeUnit := Nat

/-- A JavaScript string: its sequence of UTF-16 code units. -/
abbrev JSString := List CodeUnit

/-- The code units of one Unicode scalar value (a surrogate pair above U+FFFF). -/
def utf16Char (c : Char) : List CodeUnit :=
  if c.toNat < 65536 then [c.toNat]
  else [55296 + (c.toNat - 65536) / 1024, 56320 + (c.toNat - 65536) % 1024]

/-- The JavaScript string written by a literal. -/
def utf16 (s : String) : JSString :=
  s.toList.flatMap utf16Char

/-- ECMAScript `WhiteSpace` and `LineTerminator` code units: the set matched by
`\s` and stripped by `String.prototype.trim`. -/
def isWhiteSpace (c : CodeUnit) : Bool :=
  c == 9 || c == 10 || c == 11 || c == 12 || c == 13 || c == 32 || c == 160 ||
  c == 5760 || (8192 ≤ c && c ≤ 8202) || c == 8232 || c == 8233 || c == 8239 ||
  c == 8287 || c == 12288 || c == 65279

/-- The basic word characters `[A-Za-z0-9_]` of `\w` and `\b`. -/
def isWordChar (c : CodeUnit) : Bool :=
  (97 ≤ c && c ≤ 122) || (65 ≤ c && c ≤ 90) || (48 ≤ c && c ≤ 57) || c == 95

/-- The method `String.prototype.trim`. -/
def trim (s : JSString) : JSString :=
  ((s.dropWhile isWhiteSpace).reverse.dropWhile isWhiteSpace).reverse

/-- The call `String.prototype.substring(0, n)`. -/
def substring0 (s : JSString) (n : Nat) : JSString :=
  s.take n

/-! ## Regular expressions (backtracking semantics of ECMA-262, no `u` flag) -/

/-- The pattern constructs used by the three expressions of `sanitizeInput`. -/
inductive Regex where
  /-- A pattern character, compared after `Canonicalize` (flag `i`). -/
  | ch (c : CodeUnit)
  /-- A character class given by its membership test. -/
  | cls (p : CodeUnit → Bool)
  /-- The empty pattern. -/
  | eps
  /-- Concatenation. -/
  | seq (a b : Regex)
  /-- Greedy `*`. -/
  | star (r : Regex)
  /-- Negative lookahead `(?!r)`. -/
  | negLook (r : Regex)
  /-- Word boundary `\b`. -/
  | wordB

/-- Greedy `+`: one iteration followed by `*`. -/
def Regex.plus (r : Regex) : Regex :=
  .seq r (.star r)

/-- The pattern that matches the code units of `s` in order. -/
def Regex.lit (s : JSString) : Regex :=
  s.foldr (fun c r => .seq (.ch c) r) .eps

/-- The operation `Canonicalize` under flag `i` without flag `u`: upper-casing, where a
non-ASCII code unit never becomes an ASCII one. Only equality with the
canonical form of an ASCII pattern character is ever tested, so the folding
of the ASCII letters decides every comparison. -/
def canonicalize (c : CodeUnit) : CodeUnit :=
  if 97 ≤ c ∧ c ≤ 122 then c - 32 else c

/-- A matcher state: the code unit before the current position (if any) and the
rest of the input from the current position on. -/
structure MState where
  prev : Option CodeUnit
  rest : JSString

/-- Whether the optional code unit is a word character (`IsWordChar`). -/
def isWordAt : Option CodeUnit → Bool
  | some c => isWordChar c
  | none => false

/-- The `RepeatMatcher` of greedy `*`: try one more iteration of `m` that consumes
input, then the continuation. -/
def starLoop (m : MState → (MState → Option MState) → Option MState) :
    Nat → MState → (MState → Option MState) → Option MState
  | 0, x, k => k x
  | fuel + 1, x, k =>
    match m x (fun y => if y.rest.length = x.rest.length then none else starLoop m fuel y k) with
    | some z => some z
    | none => k x

/-- The matcher of a pattern: from state `x`, with continuation `k`. -/
def matchRe : Regex → MState → (MState → Option MState) → Option MState
  | .ch c, x, k =>
    match x.rest with
    | d :: t => if canonicalize d = canonicalize c then k ⟨some d, t⟩ else none
    | [] => none
  | .cls p, x, k =>
    match x.rest with
    | d :: t => if p d then k ⟨some d, t⟩ else none
    | [] => none
  | .eps, x, k => k x
  | .seq a b, x, k => matchRe a x (fun y => matchRe b y k)
  | .star r, x, k => starLoop (fun y c => matchRe r y c) x.rest.length x k
  | .negLook r, x, k =>
    match matchRe r x some with
    | some _ => none
    | none => k x
  | .wordB, x, k =>
    if isWordAt x.prev != isWordAt x.rest.head? then k x else none

/-- One attempt to match `r` at the current position; the state after the match. -/
def matchAt (r : Regex) (x : MState) : Option MState :=
  matchRe r x some

/-- The call `s.replace(/r/g, '')` from the current position: `skip` counts the code
units of a match still to be dropped. A match attempt is made at every
position not inside an earlier match; an empty match removes nothing. -/
def replaceGo (r : Regex) : Option CodeUnit → JSString → Nat → JSString
  | _, [], _ => []
  | prev, c :: t, 0 =>
    match matchAt r ⟨prev, c :: t⟩ with
    | some y =>
      if (c :: t).length - y.rest.length = 0 then c :: replaceGo r (some c) t 0
      else replaceGo r (some c) t ((c :: t).length - y.rest.length - 1)
    | none => c :: replaceGo r (some c) t 0
  | _, c :: t, skip + 1 => replaceGo r (some c) t skip

/-- The call `s.replace(/r/g, '')`. -/
def replaceAll (r : Regex) (s : JSString) : JSString :=
  replaceGo r none s 0

/-! ## `sanitizeInput` -/

/-- The class `[^<]`. -/
def notLt : Regex :=
  .cls (fun c => c != 60)

/-- The pattern `/<script\b[^<]*(?:(?!<\/script>)<[^<]*)*<\/script>/gi`. -/
def scriptRe : Regex :=
  .seq (.lit (utf16 "<script"))
    (.seq .wordB
      (.seq (.star notLt)
        (.seq (.star (.seq (.negLook (.lit (utf16 "</script>"))) (.seq (.ch 60) (.star notLt))))
          (.lit (utf16 "</script>")))))

/-- The pattern `/on\w+\s*=/gi`. -/
def handlerRe : Regex :=
  .seq (.lit (utf16 "on"))
    (.seq (Regex.plus (.cls isWordChar)) (.seq (.star (.cls isWhiteSpace)) (.ch 61)))

/-- The members of the class `[;&|` ++ "`" ++ `$()]`. -/
def isShellMeta (c : CodeUnit) : Bool :=
  c == 59 || c == 38 || c == 124 || c == 96 || c == 36 || c == 40 || c == 41

/-- The pattern of the shell metacharacter class, flag `g`. -/
def shellRe : Regex :=
  .cls isShellMeta

/-- The three replacements, the length cut and the trim applied to a string. -/
def sanitizeString (text : JSString) : JSString :=
  let clean := replaceAll scriptRe text
  let clean := replaceAll handlerRe clean
  let clean := replaceAll shellRe clean
  let clean := substring0 clean 2000
  trim clean

/-! ## Values -/

/-- A number written as a decimal: `(-1)^neg * mant * 10^exp10`. The Number it
denotes is the binary64 value nearest to it. -/
structure JSNum where
  neg : Bool
  mant : Nat
  exp10 : Int
deriving DecidableEq

/-- A JavaScript value, as far as JSON and the handler produce them. An object
is its list of own properties. -/
inductive JSVal where
  | undefined
  | null
  | bool (b : Bool)
  | num (n : JSNum)
  | str (s : JSString)
  | arr (xs : List JSVal)
  | obj (props : List (JSString × JSVal))

/-- Whether the decimal rounds to (plus or minus) zero in binary64: it is zero,
or at most `2^-1075`, half the least subnormal. -/
def JSNum.isZero (n : JSNum) : Bool :=
  n.mant == 0 || (decide (n.exp10 < 0) && decide (n.mant * 2 ^ 1075 ≤ 10 ^ n.exp10.natAbs))

/-- The operation `ToBoolean`. -/
def toBoolean : JSVal → Bool
  | .undefined => false
  | .null => false
  | .bool b => b
  | .num n => !n.isZero
  | .str s => !s.isEmpty
  | .arr _ => true
  | .obj _ => true

/-- The test `typeof v === 'string'`. -/
def isString : JSVal → Bool
  | .str _ => true
  | _ => false

/-- The operator `a || b`. -/
def jsOr (a b : JSVal) : JSVal :=
  if toBoolean a then a else b

/-- The value of own property `key` in a property list. -/
def lookupProp (key : JSString) : List (JSString × JSVal) → JSVal
  | [] => .undefined
  | (k, v) :: ps => if k = key then v else lookupProp key ps

/-- Property read `v.key` on a value that is neither `undefined` nor `null`,
for the names the program reads (`text`, `risk_profile`, `confidence`,
`warning`, `error`): none of them is defined on a built-in prototype, so the
result is the own property of an object and `undefined` otherwise. -/
def JSVal.get (v : JSVal) (key : JSString) : JSVal :=
  match v with
  | .obj ps => lookupProp key ps
  | _ => .undefined

/-- Property read `v.key`: a `TypeError` (here `none`) on `undefined` and `null`. -/
def getProp (v : JSVal) (key : JSString) : Option JSVal :=
  match v with
  | .undefined => none
  | .null => none
  | _ => some (v.get key)

/-- The operation `CreateDataProperty` on a property list: an existing key keeps its place and
takes the new value. -/
def setProp (key : JSString) (v : JSVal) : List (JSString × JSVal) → List (JSString × JSVal)
  | [] => [(key, v)]
  | (k, w) :: ps => if k = key then (k, v) :: ps else (k, w) :: setProp key v ps

/-! ## `JSON.parse` (ECMA-262 §25.5.1, the JSON grammar of ECMA-404) -/

/-- JSON white space: tab, line feed, carriage return, space. -/
def isJsonWs (c : CodeUnit) : Bool :=
  c == 9 || c == 10 || c == 13 || c == 32

/-- Drop leading JSON white space. -/
def skipWs (s : JSString) : JSString :=
  s.dropWhile isJsonWs

/-- A decimal digit. -/
def isDigit (c : CodeUnit) : Bool :=
  48 ≤ c && c ≤ 57

/-- The value of a hexadecimal digit. -/
def hexVal (c : CodeUnit) : Option Nat :=
  if 48 ≤ c ∧ c ≤ 57 then some (c - 48)
  else if 97 ≤ c ∧ c ≤ 102 then some (c - 87)
  else if 65 ≤ c ∧ c ≤ 70 then some (c - 55)
  else none

/-- The code unit written by the four hexadecimal digits of a `\u` escape. -/
def hex4 (a b c d : CodeUnit) : Option CodeUnit :=
  match hexVal a, hexVal b, hexVal c, hexVal d with
  | some x, some y, some z, some w => some (x * 4096 + y * 256 + z * 16 + w)
  | _, _, _, _ => none

/-- The code unit of a single-character escape `\e`. -/
def escapeOf (e : CodeUnit) : Option CodeUnit :=
  if e = 34 then some 34
  else if e = 92 then some 92
  else if e = 47 then some 47
  else if e = 98 then some 8
  else if e = 102 then some 12
  else if e = 110 then some 10
  else if e = 114 then some 13
  else if e = 116 then some 9
  else none

/-- The escape after a backslash: the code unit it writes and the rest. -/
def parseEscape (s : JSString) : Option (CodeUnit × JSString) :=
  match s with
  | 117 :: a :: b :: c :: d :: r =>
    match hex4 a b c d with
    | some u => some (u, r)
    | none => none
  | e :: r =>
    match escapeOf e with
    | some u => some (u, r)
    | none => none
  | [] => none

/-- The characters of a JSON string after its opening quote, up to and with the
closing quote: the string value (accumulated in reverse in `acc`) and the rest. -/
def parseStringBody : Nat → JSString → JSString → Option (JSString × JSString)
  | 0, _, _ => none
  | fuel + 1, s, acc =>
    match s with
    | [] => none
    | c :: r =>
      if c = 34 then some (acc.reverse, r)
      else if c = 92 then
        match parseEscape r with
        | some (u, r1) => parseStringBody fuel r1 (u :: acc)
        | none => none
      else if c < 32 then none
      else parseStringBody fuel r (c :: acc)

/-- The number written by a list of decimal digits. -/
def digitsVal (ds : JSString) : Nat :=
  ds.foldl (fun n d => 10 * n + (d - 48)) 0

/-- The optional fraction `.digits` of a JSON number: its digits and the rest. -/
def parseFrac (s : JSString) : Option (JSString × JSString) :=
  match s with
  | 46 :: r =>
    if (r.takeWhile isDigit).isEmpty then none
    else some (r.takeWhile isDigit, r.dropWhile isDigit)
  | _ => some ([], s)

/-- The optional exponent `e[+-]digits` of a JSON number: its value and the rest. -/
def parseExp (s : JSString) : Option (Int × JSString) :=
  match s with
  | c :: r =>
    if c = 101 ∨ c = 69 then
      match r with
      | 45 :: r1 =>
        if (r1.takeWhile isDigit).isEmpty then none
        else some (-(digitsVal (r1.takeWhile isDigit) : Int), r1.dropWhile isDigit)
      | 43 :: r1 =>
        if (r1.takeWhile isDigit).isEmpty then none
        else some ((digitsVal (r1.takeWhile isDigit) : Int), r1.dropWhile isDigit)
      | _ =>
        if (r.takeWhile isDigit).isEmpty then none
        else some ((digitsVal (r.takeWhile isDigit) : Int), r.dropWhile isDigit)
    else some (0, s)
  | [] => some (0, s)

/-- The integer part of a JSON number: `0`, or a non-zero digit and more digits. -/
def parseInt (s : JSString) : Option (JSString × JSString) :=
  match s with
  | c :: r =>
    if c = 48 then some ([48], r)
    else if isDigit c then some (c :: r.takeWhile isDigit, r.dropWhile isDigit)
    else none
  | [] => none

/-- A JSON number without its sign. -/
def parseUnsigned (neg : Bool) (s : JSString) : Option (JSNum × JSString) :=
  match parseInt s with
  | none => none
  | some (ip, r1) =>
    match parseFrac r1 with
    | none => none
    | some (fp, r2) =>
      match parseExp r2 with
      | none => none
      | some (e, r3) => some (⟨neg, digitsVal (ip ++ fp), e - fp.length⟩, r3)

/-- A JSON number. -/
def parseNumber (s : JSString) : Option (JSNum × JSString) :=
  match s with
  | 45 :: r => parseUnsigned true r
  | _ => parseUnsigned false s

/-- A JSON value that is not an array or an object: a literal name, a string or
a number at the head of `s`. -/
def parseAtom (s : JSString) : Option (JSVal × JSString) :=
  match s with
  | 110 :: 117 :: 108 :: 108 :: r => some (.null, r)
  | 116 :: 114 :: 117 :: 101 :: r => some (.bool true, r)
  | 102 :: 97 :: 108 :: 115 :: 101 :: r => some (.bool false, r)
  | 34 :: r =>
    match parseStringBody r.length r [] with
    | some (str, r1) => some (.str str, r1)
    | none => none
  | _ =>
    match parseNumber s with
    | some (n, r) => some (.num n, r)
    | none => none

mutual

/-- A JSON value at the head of `s` (no leading white space): it and the rest. -/
def parseValue : Nat → JSString → Option (JSVal × JSString)
  | 0, _ => none
  | fuel + 1, s =>
    match s with
    | 91 :: r =>
      match skipWs r with
      | 93 :: r1 => some (.arr [], r1)
      | r1 => parseElements fuel r1 []
    | 123 :: r =>
      match skipWs r with
      | 125 :: r1 => some (.obj [], r1)
      | r1 => parseMembers fuel r1 []
    | _ => parseAtom s

/-- The elements of a non-empty array from the first one on, up to and with
`]`; `acc` holds the elements read so far, in reverse. -/
def parseElements : Nat → JSString → List JSVal → Option (JSVal × JSString)
  | 0, _, _ => none
  | fuel + 1, s, acc =>
    match parseValue fuel s with
    | none => none
    | some (v, r) =>
      match skipWs r with
      | 44 :: r1 => parseElements fuel (skipWs r1) (v :: acc)
      | 93 :: r1 => some (.arr (v :: acc).reverse, r1)
      | _ => none

/-- The members of a non-empty object from the first one on, up to and with
`}`; `acc` holds the properties defined so far. -/
def parseMembers : Nat → JSString → List (JSString × JSVal) → Option (JSVal × JSString)
  | 0, _, _ => none
  | fuel + 1, s, acc =>
    match s with
    | 34 :: r =>
      match parseStringBody r.length r [] with
      | none => none
      | some (key, r1) =>
        match skipWs r1 with
        | 58 :: r2 =>
          match parseValue fuel (skipWs r2) with
          | none => none
          | some (v, r3) =>
            match skipWs r3 with
            | 44 :: r4 => parseMembers fuel (skipWs r4) (setProp key v acc)
            | 125 :: r4 => some (.obj (setProp key v acc), r4)
            | _ => none
        | _ => none
    | _ => none

end

/-- The call `JSON.parse(s)`: the value, or `none` for the `SyntaxError`. -/
def JSONparse (s : JSString) : Option JSVal :=
  match parseValue (2 * s.length + 2) (skipWs s) with
  | some (v, r) => if (skipWs r).isEmpty then some v else none
  | none => none

/-! ## `runPrediction` -/

/-- What the spawned classifier process does, as seen through the event that
settles the promise first (a later event changes nothing, the promise being
settled): an `error` event (the process could not be started), or a `close`
event with the exit code (`none` for `null`, a process ended by a signal) after
the output has been collected. -/
inductive WorkerOutcome where
  | error
  | close (code : Option Int) (stdout stderr : JSString)

/-- The object `{risk_profile: 'Balanced', confidence: 0.33, error: reason}`. -/
def fallback (reason : JSString) : JSVal :=
  .obj [(utf16 "risk_profile", .str (utf16 "Balanced")),
        (utf16 "confidence", .num ⟨false, 33, -2⟩),
        (utf16 "error", .str reason)]

/-- The call `spawn(pythonCmd, [scriptPath, text])`: Node refuses an argument
that holds the code unit U+0000 and throws before any process exists (`none`);
otherwise the process is created and behaves as `worker text`. -/
def spawn (worker : JSString → WorkerOutcome) (text : JSString) : Option WorkerOutcome :=
  if 0 ∈ text then none else some (worker text)

/-- The settlement of the promise `runPrediction(text)`: the value it resolves
with, or `none` when it rejects, which it does when `spawn` throws inside the
executor. -/
def runPrediction (worker : JSString → WorkerOutcome) (text : JSString) : Option JSVal :=
  match spawn worker text with
  | none => none
  | some (.close code stdout _) =>
    if code ≠ some 0 then
      some (fallback (utf16 "Classification process failed"))
    else
      match JSONparse (trim stdout) with
      | some result => some result
      | none => some (fallback (utf16 "Failed to parse classification result"))
  | some .error => some (fallback (utf16 "Failed to start classification process"))

/-! ## `POST /api/analyze` -/

/-- The nested `asset_allocation` of a portfolio document. -/
structure AssetAllocation where
  stocks : JSNum
  bonds : JSNum
  cash : JSNum
  crypto : JSNum
deriving DecidableEq

/-- A document of the `Portfolio` model (`models/Portfolio.js`). -/
structure PortfolioDoc where
  risk_profile : JSString
  description : JSString
  asset_allocation : AssetAllocation
  visualisation_color : JSString
deriving DecidableEq

/-- The allocation as a value. -/
def AssetAllocation.toJS (a : AssetAllocation) : JSVal :=
  .obj [(utf16 "stocks", .num a.stocks), (utf16 "bonds", .num a.bonds),
        (utf16 "cash", .num a.cash), (utf16 "crypto", .num a.crypto)]

/-- The surroundings of one request: the classifier process and the
`Portfolio.findOne({risk_profile: key})` query, which finds a document, finds
none, or rejects (`none`). -/
structure Env where
  worker : JSString → WorkerOutcome
  findOne : JSVal → Option (Option PortfolioDoc)

/-- The outside actions of a request, in order: a process created with its
argument, a store query with its key. -/
inductive Effect where
  | spawn (text : JSString)
  | query (key : JSVal)

/-- The response sent: status and JSON body. -/
structure HttpResponse where
  status : Nat
  body : JSVal

/-- The body `{error: msg}`. -/
def errorBody (msg : JSString) : JSVal :=
  .obj [(utf16 "error", .str msg)]

/-- The `catch` branch of the handler. -/
def internalError : HttpResponse :=
  ⟨500, errorBody (utf16 "Internal server error")⟩

/-- The projection `{description, asset_allocation, visualisation_color}` of a
found document, `null` for none. -/
def projectPortfolio : Option PortfolioDoc → JSVal
  | some portfolio =>
    .obj [(utf16 "description", .str portfolio.description),
          (utf16 "asset_allocation", portfolio.asset_allocation.toJS),
          (utf16 "visualisation_color", .str portfolio.visualisation_color)]
  | none => .null

/-- The `sanitizeInput` function. -/
def sanitizeInput : JSVal → JSString
  | .str text => sanitizeString text
  | _ => []

/-- The handler of `POST /api/analyze` on request body `body`: the response and
the outside actions performed. -/
def analyze (env : Env) (body : JSVal) : HttpResponse × List Effect :=
  match getProp body (utf16 "text") with
  | none => (internalError, [])
  | some text =>
    if !toBoolean text || !isString text then
      (⟨400, errorBody (utf16 "Text input is required")⟩, [])
    else
      let sanitizedText := sanitizeInput text
      if sanitizedText.isEmpty then
        (⟨400, errorBody (utf16 "Invalid input after sanitization")⟩, [])
      else
        match runPrediction env.worker sanitizedText with
        | none => (internalError, [])
        | some classification =>
          match getProp classification (utf16 "risk_profile") with
          | none => (internalError, [.spawn sanitizedText])
          | some key =>
            match env.findOne key with
            | none => (internalError, [.spawn sanitizedText, .query key])
            | some portfolio =>
              (⟨200, .obj [(utf16 "risk_profile", classification.get (utf16 "risk_profile")),
                           (utf16 "confidence", classification.get (utf16 "confidence")),
                           (utf16 "portfolio", projectPortfolio portfolio),
                           (utf16 "warning", jsOr (classification.get (utf16 "warning")) .null),
                           (utf16 "error", jsOr (classification.get (utf16 "error")) .null)]⟩,
               [.spawn sanitizedText, .query key])

/-! ## Notions used to state the properties -/

/-- Whether `r` matches somewhere in the input from the current position on. -/
def findMatch (r : Regex) : Option CodeUnit → JSString → Bool
  | prev, [] => (matchAt r ⟨prev, []⟩).isSome
  | prev, c :: t => (matchAt r ⟨prev, c :: t⟩).isSome || findMatch r (some c) t

/-- Whether the string contains a match of `r`. -/
def containsMatch (r : Regex) (s : JSString) : Bool :=
  findMatch r none s

/-- Whether a value is one of the three risk profile labels. -/
def isRiskProfile : JSVal → Bool
  | .str s => s == utf16 "Conservative" || s == utf16 "Balanced" || s == utf16 "Aggressive"
  | _ => false

/-- Whether the worker failed in one of the three ways `runPrediction` handles:
no start, an exit code other than 0, or output that is not JSON. -/
def WorkerOutcome.failed : WorkerOutcome → Bool
  | .error => true
  | .close code stdout _ => code != some 0 || (JSONparse (trim stdout)).isNone

/-- A worker that closes with `code` after writing `out`, whatever its argument. -/
def workerClosing (code : Option Int) (out : String) : JSString → WorkerOutcome :=
  fun _ => .close code (utf16 out) []

/-- The request body `{text: t}`. -/
def requestWith (t : String) : JSVal :=
  .obj [(utf16 "text", .str (utf16 t))]

/-- The three documents inserted by `seed.js`. -/
def seedPortfolios : List PortfolioDoc :=
  [⟨utf16 "Conservative",
    utf16 "Designed for capital preservation with minimal volatility. Ideal for near-term goals (1-3 years) or risk-averse investors approaching retirement.",
    ⟨⟨false, 20, 0⟩, ⟨false, 50, 0⟩, ⟨false, 25, 0⟩, ⟨false, 5, 0⟩⟩, utf16 "#4CAF50"⟩,
   ⟨utf16 "Balanced",
    utf16 "A diversified mix targeting moderate growth with manageable risk. Suitable for medium-term goals (5-10 years) like university fees or home deposits.",
    ⟨⟨false, 50, 0⟩, ⟨false, 30, 0⟩, ⟨false, 15, 0⟩, ⟨false, 5, 0⟩⟩, utf16 "#2196F3"⟩,
   ⟨utf16 "Aggressive",
    utf16 "Designed for maximum growth over a long time horizon (10+ years). High volatility expected but potential for significant returns.",
    ⟨⟨false, 70, 0⟩, ⟨false, 10, 0⟩, ⟨false, 5, 0⟩, ⟨false, 15, 0⟩⟩, utf16 "#FF5733"⟩]

/-- Modelled from the spec: the Portfolio Store (the database behind
`Portfolio.findOne`, not part of the sources) as a keyed read by risk-profile
label over its rows: the first row with that label, none when no row has it. -/
def findIn (rows : List PortfolioDoc) (key : JSVal) : Option (Option PortfolioDoc) :=
  match key with
  | .str label => some (rows.find? (fun row => row.risk_profile == label))
  | _ => some none

/-- The surroundings with the seeded store and a worker that exits with code 0
after writing `out`. -/
def seededEnv (out : String) : Env :=
  ⟨workerClosing (some 0) out, findIn seedPortfolios⟩

/-! ## Notions used to state that the fuel is enough -/

/-- The continuation `k` restricted to states at or after the position of `x`. -/
def guardK (x : MState) (k : MState → Option MState) : MState → Option MState :=
  fun y => if y.rest.length ≤ x.rest.length then k y else none

/-- What a successful parse with some fuel guarantees: input was consumed, and
any fuel of at least the number of consumed code units gives the same result. -/
def FuelOk (p : Nat → JSString → Option (JSVal × JSString)) (f : Nat) : Prop :=
  ∀ s v r, p f s = some (v, r) →
    r.length < s.length ∧ ∀ g, s.length - r.length ≤ g → p g s = some (v, r)

/-! ## The fuel of the matcher and of the parser is enough -/

/-- A `*` loop fails when its continuation always fails. -/
theorem starLoop_fail (m : MState → (MState → Option MState) → Option MState)
    (hm : ∀ x k, (∀ y, k y = none) → m x k = none) (f : Nat) :
    ∀ x k, (∀ y, k y = none) → starLoop m f x k = none := by
  induction f with
  | zero => intro x k hk; simp [starLoop, hk]
  | succ f ih =>
    intro x k hk
    unfold starLoop
    rw [hm x _ (fun y => by split <;> simp [ih y k hk])]
    exact hk x

/-- A `*` loop only calls its continuation at or after its starting position. -/
theorem starLoop_guard (m : MState → (MState → Option MState) → Option MState)
    (hm : ∀ x k, m x k = m x (guardK x k)) (f : Nat) :
    ∀ x k, starLoop m f x k = starLoop m f x (guardK x k) := by
  induction f with
  | zero => intro x k; simp [starLoop, guardK]
  | succ f ih =>
    intro x k
    unfold starLoop
    have hx : guardK x k x = k x := by simp [guardK]
    rw [hx, hm x (fun y => if y.rest.length = x.rest.length then none else starLoop m f y k),
      hm x (fun y => if y.rest.length = x.rest.length then none
        else starLoop m f y (guardK x k))]
    have : guardK x (fun y => if y.rest.length = x.rest.length then none
          else starLoop m f y k) =
        guardK x (fun y => if y.rest.length = x.rest.length then none
          else starLoop m f y (guardK x k)) := by
      funext y
      simp only [guardK]
      split
      · rename_i hle
        split
        · rfl
        · rw [ih y k, ih y (guardK x k)]
          congr 1
          funext z
          simp only [guardK]
          split
          · rename_i hz
            rw [if_pos (Nat.le_trans hz hle)]
          · rfl
      · rfl
    rw [this]

/-- A matcher fails when its continuation always fails. -/
theorem matchRe_fail (r : Regex) :
    ∀ x k, (∀ y, k y = none) → matchRe r x k = none := by
  induction r with
  | ch c =>
    intro x k hk
    unfold matchRe
    split
    · split
      · exact hk _
      · rfl
    · rfl
  | cls p =>
    intro x k hk
    unfold matchRe
    split
    · split
      · exact hk _
      · rfl
    · rfl
  | eps => intro x k hk; simpa [matchRe] using hk x
  | seq a b iha ihb =>
    intro x k hk
    unfold matchRe
    exact iha x _ (fun y => ihb y k hk)
  | star r ih =>
    intro x k hk
    unfold matchRe
    exact starLoop_fail _ (fun x k hk => ih x k hk) _ x k hk
  | negLook r _ =>
    intro x k hk
    unfold matchRe
    split
    · rfl
    · exact hk x
  | wordB =>
    intro x k hk
    unfold matchRe
    split
    · exact hk x
    · rfl

/-- A matcher only calls its continuation at or after its starting position. -/
theorem matchRe_guard (r : Regex) :
    ∀ x k, matchRe r x k = matchRe r x (guardK x k) := by
  induction r with
  | ch c =>
    intro x k
    unfold matchRe
    split
    · rename_i d t hx
      split
      · simp [guardK, hx]
      · rfl
    · rfl
  | cls p =>
    intro x k
    unfold matchRe
    split
    · rename_i d t hx
      split
      · simp [guardK, hx]
      · rfl
    · rfl
  | eps => intro x k; simp [matchRe, guardK]
  | seq a b iha ihb =>
    intro x k
    unfold matchRe
    rw [iha x (fun y => matchRe b y k), iha x (fun y => matchRe b y (guardK x k))]
    congr 1
    funext y
    simp only [guardK]
    split
    · rename_i hle
      rw [ihb y k, ihb y (guardK x k)]
      congr 1
      funext z
      simp only [guardK]
      split
      · rename_i hz
        rw [if_pos (Nat.le_trans hz hle)]
      · rfl
    · rfl
  | star r ih =>
    intro x k
    unfold matchRe
    exact starLoop_guard _ (fun x k => ih x k) _ x k
  | negLook r _ =>
    intro x k
    unfold matchRe
    split
    · rfl
    · simp [guardK]
  | wordB =>
    intro x k
    unfold matchRe
    split
    · simp [guardK]
    · rfl

/-- The fuel of a `*` loop is enough: any fuel of at least the length of the
remaining input gives the same result. -/
theorem starLoop_fuel (r : Regex) (f : Nat) :
    ∀ g x k, x.rest.length ≤ f → x.rest.length ≤ g →
      starLoop (fun y c => matchRe r y c) f x k = starLoop (fun y c => matchRe r y c) g x k := by
  have hstep : ∀ (x : MState) (c1 c2 : MState → Option MState),
      (∀ y, y.rest.length < x.rest.length → c1 y = c2 y) →
      matchRe r x (fun y => if y.rest.length = x.rest.length then none else c1 y) =
        matchRe r x (fun y => if y.rest.length = x.rest.length then none else c2 y) := by
    intro x c1 c2 h
    rw [matchRe_guard r x (fun y => if y.rest.length = x.rest.length then none else c1 y),
      matchRe_guard r x (fun y => if y.rest.length = x.rest.length then none else c2 y)]
    congr 1
    funext y
    simp only [guardK]
    split
    · rename_i hle
      split
      · rfl
      · rename_i hne
        exact h y (Nat.lt_of_le_of_ne hle hne)
    · rfl
  have hzero : ∀ (g : Nat) (x : MState) (k : MState → Option MState), x.rest.length = 0 →
      starLoop (fun y c => matchRe r y c) g x k = k x := by
    intro g x k hx
    cases g with
    | zero => rfl
    | succ g =>
      unfold starLoop
      rw [matchRe_guard r x _, matchRe_fail r x _ (fun y => by
        simp only [guardK]
        split
        · rename_i hle
          rw [if_pos (by omega)]
        · rfl)]
  induction f with
  | zero =>
    intro g x k hf _
    rw [hzero 0 x k (by omega), hzero g x k (by omega)]
  | succ f ih =>
    intro g x k hf hg
    cases g with
    | zero => rw [hzero (f + 1) x k (by omega), hzero 0 x k (by omega)]
    | succ g =>
      unfold starLoop
      rw [hstep x _ _ (fun y hy => ih g y k (by omega) (by omega))]

/-- Skipping white space does not lengthen the input. -/
theorem skipWs_length_le (s : JSString) : (skipWs s).length ≤ s.length :=
  (List.dropWhile_sublist isJsonWs).length_le

/-- Dropping digits does not lengthen the input. -/
theorem dropDigits_le (l : JSString) : (l.dropWhile isDigit).length ≤ l.length :=
  (List.dropWhile_sublist isDigit).length_le

/-- An escape consumes input. -/
theorem parseEscape_length {s r : JSString} {u : CodeUnit}
    (h : parseEscape s = some (u, r)) : r.length < s.length := by
  unfold parseEscape at h
  split at h
  · split at h
    · simp only [Option.some.injEq, Prod.mk.injEq] at h
      rw [← h.2]; simp only [List.length_cons]; omega
    · simp at h
  · split at h
    · simp only [Option.some.injEq, Prod.mk.injEq] at h
      rw [← h.2]; simp only [List.length_cons]; omega
    · simp at h
  · simp at h

/-- A string body consumes input. -/
theorem parseStringBody_length (f : Nat) : ∀ (s acc v r : JSString),
    parseStringBody f s acc = some (v, r) → r.length < s.length := by
  induction f with
  | zero => intro s acc v r h; simp [parseStringBody] at h
  | succ f ih =>
    intro s acc v r h
    unfold parseStringBody at h
    split at h
    · simp at h
    · split at h
      · simp only [Option.some.injEq, Prod.mk.injEq] at h
        rw [← h.2]; simp
      · split at h
        · split at h
          · rename_i u r1 h1
            have := ih _ _ _ _ h
            have := parseEscape_length h1
            simp only [List.length_cons]; omega
          · simp at h
        · split at h
          · simp at h
          · have := ih _ _ _ _ h
            simp only [List.length_cons]; omega

/-- The fuel of a string body is enough: a body read with any fuel is read the
same with any fuel of at least the length of the input. -/
theorem parseStringBody_fuel (f : Nat) : ∀ (s acc v r : JSString),
    parseStringBody f s acc = some (v, r) →
      ∀ g, s.length ≤ g → parseStringBody g s acc = some (v, r) := by
  induction f with
  | zero => intro s acc v r h; simp [parseStringBody] at h
  | succ f ih =>
    intro s acc v r h g hg
    have hl := parseStringBody_length _ _ _ _ _ h
    obtain ⟨g, rfl⟩ : ∃ g', g = g' + 1 := ⟨g - 1, by omega⟩
    unfold parseStringBody at h
    split at h
    · simp at h
    · rename_i c t
      simp only [List.length_cons] at hg
      split at h
      · rename_i hc
        simp only [parseStringBody, hc, if_true]
        exact h
      · rename_i hc
        split at h
        · rename_i hb
          split at h
          · rename_i u r1 h1
            have := parseEscape_length h1
            have := ih _ _ _ _ h g (by omega)
            simp only [parseStringBody, hc, hb, if_false, if_true, h1]
            exact this
          · simp at h
        · rename_i hb
          split at h
          · simp at h
          · rename_i hlt
            have := ih _ _ _ _ h g (by omega)
            simp only [parseStringBody, hc, hb, hlt, if_false]
            exact this

/-- The integer part of a number consumes input. -/
theorem parseInt_length {s ip r : JSString} (h : parseInt s = some (ip, r)) :
    r.length < s.length := by
  unfold parseInt at h
  split at h
  · split at h
    · simp only [Option.some.injEq, Prod.mk.injEq] at h
      rw [← h.2]; simp
    · split at h
      · simp only [Option.some.injEq, Prod.mk.injEq] at h
        rw [← h.2]
        exact Nat.lt_of_le_of_lt (dropDigits_le _) (by simp only [List.length_cons]; omega)
      · simp at h
  · simp at h

/-- The fraction of a number does not lengthen the input. -/
theorem parseFrac_length {s fp r : JSString} (h : parseFrac s = some (fp, r)) :
    r.length ≤ s.length := by
  unfold parseFrac at h
  split at h
  · split at h
    · simp at h
    · simp only [Option.some.injEq, Prod.mk.injEq] at h
      rw [← h.2]
      exact Nat.le_trans (dropDigits_le _) (by simp only [List.length_cons]; omega)
  · simp only [Option.some.injEq, Prod.mk.injEq] at h
    rw [← h.2]

/-- The exponent of a number does not lengthen the input. -/
theorem parseExp_length {s r : JSString} {e : Int} (h : parseExp s = some (e, r)) :
    r.length ≤ s.length := by
  unfold parseExp at h
  split at h
  · split at h
    · split at h
      · split at h
        · simp at h
        · simp only [Option.some.injEq, Prod.mk.injEq] at h
          rw [← h.2]
          exact Nat.le_trans (dropDigits_le _) (by simp only [List.length_cons]; omega)
      · split at h
        · simp at h
        · simp only [Option.some.injEq, Prod.mk.injEq] at h
          rw [← h.2]
          exact Nat.le_trans (dropDigits_le _) (by simp only [List.length_cons]; omega)
      · split at h
        · simp at h
        · simp only [Option.some.injEq, Prod.mk.injEq] at h
          rw [← h.2]
          exact Nat.le_trans (dropDigits_le _) (by simp only [List.length_cons]; omega)
    · simp only [Option.some.injEq, Prod.mk.injEq] at h
      rw [← h.2]
  · simp only [Option.some.injEq, Prod.mk.injEq] at h
    rw [← h.2]

/-- An unsigned number consumes input. -/
theorem parseUnsigned_length {neg : Bool} {s r : JSString} {n : JSNum}
    (h : parseUnsigned neg s = some (n, r)) : r.length < s.length := by
  unfold parseUnsigned at h
  split at h
  · simp at h
  · rename_i ip r1 h1
    split at h
    · simp at h
    · rename_i fp r2 h2
      split at h
      · simp at h
      · rename_i e r3 h3
        simp only [Option.some.injEq, Prod.mk.injEq] at h
        rw [← h.2]
        have := parseInt_length h1
        have := parseFrac_length h2
        have := parseExp_length h3
        omega

/-- A number consumes input. -/
theorem parseNumber_length {s r : JSString} {n : JSNum}
    (h : parseNumber s = some (n, r)) : r.length < s.length := by
  unfold parseNumber at h
  split at h
  · have := parseUnsigned_length h
    simp only [List.length_cons]; omega
  · exact parseUnsigned_length h

/-- A literal name, string or number consumes input. -/
theorem parseAtom_length {s r : JSString} {v : JSVal}
    (h : parseAtom s = some (v, r)) : r.length < s.length := by
  unfold parseAtom at h
  split at h
  · simp only [Option.some.injEq, Prod.mk.injEq] at h
    rw [← h.2]; simp only [List.length_cons]; omega
  · simp only [Option.some.injEq, Prod.mk.injEq] at h
    rw [← h.2]; simp only [List.length_cons]; omega
  · simp only [Option.some.injEq, Prod.mk.injEq] at h
    rw [← h.2]; simp only [List.length_cons]; omega
  · split at h
    · rename_i str r1 h1
      simp only [Option.some.injEq, Prod.mk.injEq] at h
      rw [← h.2]
      have := parseStringBody_length _ _ _ _ _ h1
      simp only [List.length_cons]; omega
    · simp at h
  · split at h
    · rename_i n r1 h1
      simp only [Option.some.injEq, Prod.mk.injEq] at h
      rw [← h.2]
      exact parseNumber_length h1
    · simp at h

/-- The three parsers of values, array elements and object members consume
input, and succeed alike with any fuel of at least what they consumed. -/
theorem parse_fuel (f : Nat) :
    FuelOk parseValue f ∧ (∀ acc, FuelOk (fun g s => parseElements g s acc) f) ∧
      (∀ acc, FuelOk (fun g s => parseMembers g s acc) f) := by
  induction f with
  | zero =>
    refine ⟨?_, ?_, ?_⟩
    · intro s v r h; simp [parseValue] at h
    · intro acc s v r h; simp [parseElements] at h
    · intro acc s v r h; simp [parseMembers] at h
  | succ f ih =>
    obtain ⟨ihV, ihE, ihM⟩ := ih
    refine ⟨?_, ?_, ?_⟩
    · intro s v r h
      unfold parseValue at h
      split at h
      · rename_i r0
        have hw := skipWs_length_le r0
        split at h
        · rename_i r1 h1
          simp only [Option.some.injEq, Prod.mk.injEq] at h
          obtain ⟨hv, hr⟩ := h
          subst hv; subst hr
          rw [h1] at hw
          simp only [List.length_cons] at hw ⊢
          refine ⟨by omega, fun g hg => ?_⟩
          obtain ⟨g, rfl⟩ : ∃ g', g = g' + 1 := ⟨g - 1, by omega⟩
          simp only [parseValue, h1]
        · rename_i hne
          obtain ⟨hl, hg'⟩ := ihE [] _ _ _ h
          simp only [List.length_cons]
          refine ⟨by omega, fun g hg => ?_⟩
          obtain ⟨g, rfl⟩ : ∃ g', g = g' + 1 := ⟨g - 1, by omega⟩
          have := hg' g (by omega)
          simp only [parseValue]
          exact this
      · rename_i r0
        have hw := skipWs_length_le r0
        split at h
        · rename_i r1 h1
          simp only [Option.some.injEq, Prod.mk.injEq] at h
          obtain ⟨hv, hr⟩ := h
          subst hv; subst hr
          rw [h1] at hw
          simp only [List.length_cons] at hw ⊢
          refine ⟨by omega, fun g hg => ?_⟩
          obtain ⟨g, rfl⟩ : ∃ g', g = g' + 1 := ⟨g - 1, by omega⟩
          simp only [parseValue, h1]
        · rename_i hne
          obtain ⟨hl, hg'⟩ := ihM [] _ _ _ h
          simp only [List.length_cons]
          refine ⟨by omega, fun g hg => ?_⟩
          obtain ⟨g, rfl⟩ : ∃ g', g = g' + 1 := ⟨g - 1, by omega⟩
          have := hg' g (by omega)
          simp only [parseValue]
          exact this
      · rename_i hA hO
        have hl := parseAtom_length h
        refine ⟨hl, fun g hg => ?_⟩
        obtain ⟨g, rfl⟩ : ∃ g', g = g' + 1 := ⟨g - 1, by omega⟩
        unfold parseValue
        split
        · rename_i r0; exact absurd rfl (hA r0)
        · rename_i r0; exact absurd rfl (hO r0)
        · exact h
    · intro acc s v r h
      simp only [] at h
      unfold parseElements at h
      split at h
      · simp at h
      · rename_i v1 r1 h1
        obtain ⟨hl1, hg1⟩ := ihV _ _ _ h1
        have hw := skipWs_length_le r1
        split at h
        · rename_i r2 h2
          have hw2 := skipWs_length_le r2
          obtain ⟨hl3, hg3⟩ := ihE _ _ _ _ h
          simp only [] at hl3 hg3
          rw [h2] at hw
          simp only [List.length_cons] at hw
          refine ⟨by omega, fun g hg => ?_⟩
          obtain ⟨g, rfl⟩ : ∃ g', g = g' + 1 := ⟨g - 1, by omega⟩
          simp only [parseElements, hg1 g (by omega), h2]
          exact hg3 g (by omega)
        · rename_i r2 h2
          simp only [Option.some.injEq, Prod.mk.injEq] at h
          obtain ⟨hv, hr⟩ := h
          subst hv; subst hr
          rw [h2] at hw
          simp only [List.length_cons] at hw
          refine ⟨by omega, fun g hg => ?_⟩
          obtain ⟨g, rfl⟩ : ∃ g', g = g' + 1 := ⟨g - 1, by omega⟩
          simp only [parseElements, hg1 g (by omega), h2]
        · simp at h
    · intro acc s v r h
      simp only [] at h
      unfold parseMembers at h
      split at h
      · rename_i r0
        split at h
        · simp at h
        · rename_i key r1 h1
          have hl1 := parseStringBody_length _ _ _ _ _ h1
          have hw1 := skipWs_length_le r1
          split at h
          · rename_i r2 h2
            have hw2 := skipWs_length_le r2
            split at h
            · simp at h
            · rename_i v3 r3 h3
              obtain ⟨hl3, hg3⟩ := ihV _ _ _ h3
              have hw3 := skipWs_length_le r3
              rw [h2] at hw1
              simp only [List.length_cons] at hw1
              split at h
              · rename_i r4 h4
                have hw4 := skipWs_length_le r4
                obtain ⟨hl5, hg5⟩ := ihM _ _ _ _ h
                simp only [] at hl5 hg5
                rw [h4] at hw3
                simp only [List.length_cons] at hw3 ⊢
                refine ⟨by omega, fun g hg => ?_⟩
                obtain ⟨g, rfl⟩ : ∃ g', g = g' + 1 := ⟨g - 1, by omega⟩
                simp only [parseMembers, h1, h2, hg3 g (by omega), h4]
                exact hg5 g (by omega)
              · rename_i r4 h4
                simp only [Option.some.injEq, Prod.mk.injEq] at h
                obtain ⟨hv, hr⟩ := h
                subst hv; subst hr
                rw [h4] at hw3
                simp only [List.length_cons] at hw3 ⊢
                refine ⟨by omega, fun g hg => ?_⟩
                obtain ⟨g, rfl⟩ : ∃ g', g = g' + 1 := ⟨g - 1, by omega⟩
                simp only [parseMembers, h1, h2, hg3 g (by omega), h4]
              · simp at h
          · simp at h
      · simp at h

/-- The fuel of `JSONparse` is enough: a parse that succeeds with any fuel
succeeds with the same result with the fuel `JSONparse` gives. -/
theorem parseValue_fuel_enough {f : Nat} {s : JSString} {v : JSVal} {r : JSString}
    (h : parseValue f s = some (v, r)) (g : Nat) (hg : s.length ≤ g) :
    parseValue g s = some (v, r) :=
  ((parse_fuel f).1 s v r h).2 g (by omega)

/-- The call `JSON.parse(s)` succeeds exactly when the text is one JSON value between white
space, whatever fuel reads it. -/
theorem JSONparse_eq_some_iff (s : JSString) (v : JSVal) :
    JSONparse s = some v ↔
      ∃ f r, parseValue f (skipWs s) = some (v, r) ∧ (skipWs r).isEmpty = true := by
  constructor
  · intro h
    unfold JSONparse at h
    split at h
    · rename_i w r hp
      split at h
      · rename_i he
        simp only [Option.some.injEq] at h
        subst h
        exact ⟨_, r, hp, he⟩
      · simp at h
    · simp at h
  · rintro ⟨f, r, hp, he⟩
    have hl := skipWs_length_le s
    unfold JSONparse
    rw [parseValue_fuel_enough hp (2 * s.length + 2) (by omega)]
    simp only [he, if_true]

/-! ## Properties of `sanitizeInput` -/

/-- The shell-metacharacter replacement keeps exactly the other code units. -/
theorem replaceGo_shellRe (s : JSString) (prev : Option CodeUnit) :
    replaceGo shellRe prev s 0 = s.filter (fun c => !isShellMeta c) := by
  induction s generalizing prev with
  | nil => simp [replaceGo]
  | cons c t ih =>
    by_cases hc : isShellMeta c = true
    · simp [replaceGo, matchAt, matchRe, shellRe, hc]
      simpa [shellRe] using ih (some c)
    · simp [replaceGo, matchAt, matchRe, shellRe, hc]
      simpa [shellRe] using ih (some c)

/-- Trimming only removes code units. -/
theorem mem_of_mem_trim {c : CodeUnit} {s : JSString} (h : c ∈ trim s) : c ∈ s := by
  unfold trim at h
  rw [List.mem_reverse] at h
  have h1 := (List.dropWhile_sublist isWhiteSpace).mem h
  rw [List.mem_reverse] at h1
  exact (List.dropWhile_sublist isWhiteSpace).mem h1

/-- Every code unit of a sanitized string passed the shell-metacharacter filter. -/
theorem sanitizeString_not_shellMeta {c : CodeUnit} {s : JSString}
    (h : c ∈ sanitizeString s) : isShellMeta c = false := by
  unfold sanitizeString at h
  have h1 := mem_of_mem_trim h
  unfold substring0 at h1
  have h2 := List.mem_of_mem_take h1
  unfold replaceAll at h2
  rw [replaceGo_shellRe] at h2
  simpa using (List.mem_filter.mp h2).2

/-- C1, at three inputs: a shell metacharacter inside an event-handler
attribute, an event-handler attribute nested in another, and a script block
nested in the letters of an opening tag. After the three single-pass removals
the outputs are `onclick=x`, `onclick=x` and `<script>alert1</script>`: the
first two contain a match of the event-handler pattern, the third a match of
the script-block pattern. -/
theorem sanitizeInput_leaves_patterns :
    sanitizeInput (.str (utf16 "on(click=x")) = utf16 "onclick=x" ∧
    sanitizeInput (.str (utf16 "oonclick=nclick=x")) = utf16 "onclick=x" ∧
    containsMatch handlerRe (utf16 "onclick=x") = true ∧
    sanitizeInput (.str (utf16 "<scr<script></script>ipt>alert1</script>"))
      = utf16 "<script>alert1</script>" ∧
    containsMatch scriptRe (utf16 "<script>alert1</script>") = true := by
  refine ⟨by decide, by decide, by decide, by decide, by decide⟩

/-- C10: for every string input, the output of `sanitizeInput` contains none of
the shell metacharacters `;` `&` `|` backtick `$` `(` `)` (code units 59, 38,
124, 96, 36, 40, 41). -/
theorem sanitizeInput_no_shell_metacharacter (text : JSString) (c : CodeUnit)
    (h : c ∈ sanitizeInput (.str text)) :
    c ≠ 59 ∧ c ≠ 38 ∧ c ≠ 124 ∧ c ≠ 96 ∧ c ≠ 36 ∧ c ≠ 40 ∧ c ≠ 41 := by
  have h1 : isShellMeta c = false := sanitizeString_not_shellMeta h
  simp only [isShellMeta, Bool.or_eq_false_iff, beq_eq_false_iff_ne, ne_eq] at h1
  obtain ⟨⟨⟨⟨⟨⟨a1, a2⟩, a3⟩, a4⟩, a5⟩, a6⟩, a7⟩ := h1
  exact ⟨a1, a2, a3, a4, a5, a6, a7⟩

/-- The input `a;b (c) $d` keeps its letter `b`, which is none of the seven. -/
theorem sanitizeInput_no_shell_metacharacter_witness :
    98 ∈ sanitizeInput (.str (utf16 "a;b (c) $d")) ∧
    (98 ≠ 59 ∧ 98 ≠ 38 ∧ 98 ≠ 124 ∧ 98 ≠ 96 ∧ 98 ≠ 36 ∧ 98 ≠ 40 ∧ 98 ≠ 41) :=
  ⟨by decide, sanitizeInput_no_shell_metacharacter (utf16 "a;b (c) $d") 98 (by decide)⟩

/-! ## The length cut, the trim and benign text -/

/-- Trimming does not lengthen a string. -/
theorem trim_length_le (s : JSString) : (trim s).length ≤ s.length := by
  unfold trim
  rw [List.length_reverse]
  have h1 := (List.dropWhile_sublist isWhiteSpace
    (l := (s.dropWhile isWhiteSpace).reverse)).length_le
  have h2 := (List.dropWhile_sublist isWhiteSpace (l := s)).length_le
  rw [List.length_reverse] at h1
  omega

/-- The first code unit left by dropping leading white space is not white space. -/
theorem head_dropWhile_not_ws (s : JSString) (c : CodeUnit)
    (h : (s.dropWhile isWhiteSpace).head? = some c) : isWhiteSpace c = false := by
  have h1 := List.head?_dropWhile_not isWhiteSpace s
  rw [h] at h1
  exact h1

/-- A trimmed string does not end with white space. -/
theorem trim_getLast_not_ws (s : JSString) (c : CodeUnit)
    (h : (trim s).getLast? = some c) : isWhiteSpace c = false := by
  unfold trim at h
  rw [List.getLast?_reverse] at h
  exact head_dropWhile_not_ws _ c h

/-- A trimmed string does not start with white space. -/
theorem trim_head_not_ws (s : JSString) (c : CodeUnit)
    (h : (trim s).head? = some c) : isWhiteSpace c = false := by
  unfold trim at h
  have hp : ((s.dropWhile isWhiteSpace).reverse.dropWhile isWhiteSpace).reverse <+:
      s.dropWhile isWhiteSpace := by
    have := (List.dropWhile_suffix isWhiteSpace
      (l := (s.dropWhile isWhiteSpace).reverse)).reverse
    rwa [List.reverse_reverse] at this
  obtain ⟨t, ht⟩ := hp
  cases hb : ((s.dropWhile isWhiteSpace).reverse.dropWhile isWhiteSpace).reverse with
  | nil => rw [hb] at h; simp at h
  | cons d b =>
    rw [hb] at h ht
    simp only [List.head?_cons, Option.some.injEq] at h
    subst h
    apply head_dropWhile_not_ws s
    rw [← ht]
    rfl

/-- A `*` loop fails from a state in a tail-closed set of inputs on which its
continuation always fails. -/
theorem starLoop_none_of (P : JSString → Prop)
    (m : MState → (MState → Option MState) → Option MState)
    (hm : ∀ x k, P x.rest → (∀ y, P y.rest → k y = none) → m x k = none) (f : Nat) :
    ∀ x k, P x.rest → (∀ y, P y.rest → k y = none) → starLoop m f x k = none := by
  induction f with
  | zero => intro x k hx hk; exact hk x hx
  | succ f ih =>
    intro x k hx hk
    unfold starLoop
    rw [hm x _ hx (fun y hy => by split <;> simp [ih y k hy hk])]
    exact hk x hx

/-- A matcher fails from a state in a tail-closed set of inputs on which its
continuation always fails: the continuation is only ever called on a tail. -/
theorem matchRe_none_of (P : JSString → Prop) (hP : ∀ d t, P (d :: t) → P t) (r : Regex) :
    ∀ x k, P x.rest → (∀ y, P y.rest → k y = none) → matchRe r x k = none := by
  induction r with
  | ch c =>
    intro x k hx hk
    unfold matchRe
    split
    · rename_i d t hd
      split
      · exact hk _ (hP d t (hd ▸ hx))
      · rfl
    · rfl
  | cls p =>
    intro x k hx hk
    unfold matchRe
    split
    · rename_i d t hd
      split
      · exact hk _ (hP d t (hd ▸ hx))
      · rfl
    · rfl
  | eps => intro x k hx hk; simpa [matchRe] using hk x hx
  | seq a b iha ihb =>
    intro x k hx hk
    unfold matchRe
    exact iha x _ hx (fun y hy => ihb y k hy hk)
  | star r ih =>
    intro x k hx hk
    unfold matchRe
    exact starLoop_none_of P _ (fun x k => ih x k) _ x k hx hk
  | negLook r _ =>
    intro x k hx hk
    unfold matchRe
    split
    · rfl
    · exact hk x hx
  | wordB =>
    intro x k hx hk
    unfold matchRe
    split
    · exact hk x hx
    · rfl

/-- Only `<` and `=` themselves have the canonical form of `<` and `=`. -/
theorem canonicalize_eq_iff (d : CodeUnit) :
    (canonicalize d = canonicalize 60 ↔ d = 60) ∧ (canonicalize d = canonicalize 61 ↔ d = 61) := by
  have h60 : canonicalize 60 = 60 := by decide
  have h61 : canonicalize 61 = 61 := by decide
  rw [h60, h61]
  have aux : ∀ n : Nat, ((if 97 ≤ n ∧ n ≤ 122 then n - 32 else n) = 60 ↔ n = 60) ∧
      ((if 97 ≤ n ∧ n ≤ 122 then n - 32 else n) = 61 ↔ n = 61) := by
    intro n
    constructor <;> split <;> constructor <;> intro h <;> omega
  exact aux d

/-- A pattern character `<` or `=` fails on input that does not start with it. -/
theorem matchRe_ch_none (c : CodeUnit) (hc : c = 60 ∨ c = 61) (x : MState)
    (k : MState → Option MState) (hx : c ∉ x.rest) : matchRe (.ch c) x k = none := by
  unfold matchRe
  split
  · rename_i d t hd
    have hne : d ≠ c := by
      intro h
      apply hx
      rw [hd, h]
      exact List.mem_cons_self _ _
    rcases hc with rfl | rfl
    · rw [if_neg (fun h => hne ((canonicalize_eq_iff d).1.mp h))]
    · rw [if_neg (fun h => hne ((canonicalize_eq_iff d).2.mp h))]
  · rfl

/-- The script-block pattern matches nowhere in input without `<`. -/
theorem matchAt_scriptRe_none (x : MState) (hx : 60 ∉ x.rest) : matchAt scriptRe x = none := by
  obtain ⟨a, b, hab⟩ : ∃ a b, scriptRe = .seq (.seq (.ch 60) a) b := ⟨_, _, rfl⟩
  rw [hab]
  unfold matchAt
  unfold matchRe
  unfold matchRe
  exact matchRe_ch_none 60 (Or.inl rfl) x _ hx

/-- The event-handler pattern matches nowhere in input without `=`. -/
theorem matchAt_handlerRe_none (x : MState) (hx : 61 ∉ x.rest) :
    matchAt handlerRe x = none := by
  have hP : ∀ (d : CodeUnit) (t : JSString), 61 ∉ d :: t → 61 ∉ t :=
    fun d t h ht => h (List.mem_cons_of_mem d ht)
  unfold matchAt handlerRe
  unfold matchRe
  refine matchRe_none_of (fun s => 61 ∉ s) hP _ x _ hx (fun y hy => ?_)
  unfold matchRe
  refine matchRe_none_of (fun s => 61 ∉ s) hP _ y _ hy (fun z hz => ?_)
  unfold matchRe
  refine matchRe_none_of (fun s => 61 ∉ s) hP _ z _ hz (fun w hw => ?_)
  exact matchRe_ch_none 61 (Or.inr rfl) w _ hw

/-- A global replace changes nothing when the pattern matches nowhere in the
inputs of a tail-closed set. -/
theorem replaceGo_eq_self (r : Regex) (P : JSString → Prop)
    (hP : ∀ d t, P (d :: t) → P t)
    (hr : ∀ x, P x.rest → matchAt r x = none) :
    ∀ (s : JSString) (prev : Option CodeUnit), P s → replaceGo r prev s 0 = s := by
  intro s
  induction s with
  | nil => intro prev _; rfl
  | cons c t ih =>
    intro prev hs
    unfold replaceGo
    rw [hr ⟨prev, c :: t⟩ hs]
    simp only
    rw [ih (some c) (hP c t hs)]

/-- On a string without `<`, without `=` and without shell metacharacters the
three replacements change nothing: what remains is the cut and the trim. -/
theorem sanitizeString_benign (text : JSString) (hlt : 60 ∉ text) (heq : 61 ∉ text)
    (hsh : ∀ c ∈ text, isShellMeta c = false) :
    sanitizeString text = trim (text.take 2000) := by
  have h1 : replaceAll scriptRe text = text :=
    replaceGo_eq_self scriptRe (fun s => 60 ∉ s)
      (fun d t h ht => h (List.mem_cons_of_mem d ht))
      (fun x hx => matchAt_scriptRe_none x hx) text none hlt
  have h2 : replaceAll handlerRe text = text :=
    replaceGo_eq_self handlerRe (fun s => 61 ∉ s)
      (fun d t h ht => h (List.mem_cons_of_mem d ht))
      (fun x hx => matchAt_handlerRe_none x hx) text none heq
  have h3 : replaceAll shellRe text = text := by
    unfold replaceAll
    rw [replaceGo_shellRe, List.filter_eq_self]
    intro c hc
    simp [hsh c hc]
  unfold sanitizeString
  simp only [h1, h2, h3, substring0]

/-- A string of 2500 letters `a` is cut to its first 2000. -/
theorem sanitizeInput_truncates :
    sanitizeInput (.str (List.replicate 2500 97)) = List.replicate 2000 97 := by
  have hmem : ∀ c ∈ List.replicate 2500 97, c = 97 := fun c hc => List.eq_of_mem_replicate hc
  have hws : isWhiteSpace 97 = false := by decide
  have h := sanitizeString_benign (List.replicate 2500 97)
    (fun h => absurd (hmem 60 h) (by decide)) (fun h => absurd (hmem 61 h) (by decide))
    (fun c hc => by rw [hmem c hc]; decide)
  rw [List.take_replicate] at h
  have hmin : min 2000 2500 = 2000 := by decide
  rw [hmin] at h
  show sanitizeString (List.replicate 2500 97) = List.replicate 2000 97
  rw [h]
  unfold trim
  rw [List.dropWhile_replicate, hws]
  simp only [Bool.false_eq_true, if_false, List.reverse_replicate]
  rw [List.dropWhile_replicate, hws]
  simp only [Bool.false_eq_true, if_false, List.reverse_replicate]

/-- C11: for every string input, of any length, the output of `sanitizeInput`
has length at most 2000 and neither starts nor ends with a white-space code
unit; for an input that is not a string the output is the empty string. -/
theorem sanitizeInput_bounded_trimmed (text : JSString) (v : JSVal) :
    (sanitizeInput (.str text)).length ≤ 2000 ∧
    (∀ c, (sanitizeInput (.str text)).head? = some c → isWhiteSpace c = false) ∧
    (∀ c, (sanitizeInput (.str text)).getLast? = some c → isWhiteSpace c = false) ∧
    (isString v = false → sanitizeInput v = []) := by
  refine ⟨?_, ?_, ?_, ?_⟩
  · show (sanitizeString text).length ≤ 2000
    unfold sanitizeString substring0
    refine Nat.le_trans (trim_length_le _) ?_
    exact List.length_take_le 2000 _
  · intro c h
    exact trim_head_not_ws _ c h
  · intro c h
    exact trim_getLast_not_ws _ c h
  · intro hv
    cases v <;> first | rfl | simp [isString] at hv

/-- A string of 2500 letters comes out with 2000; the text ` hi there` followed
by a line feed comes out starting with `h` and ending with `e`; the number 5
comes out as the empty string. -/
theorem sanitizeInput_bounded_trimmed_witness :
    (List.replicate 2500 97).length = 2500 ∧
    (sanitizeInput (.str (List.replicate 2500 97))).length ≤ 2000 ∧
    sanitizeInput (.str (List.replicate 2500 97)) = List.replicate 2000 97 ∧
    ((sanitizeInput (.str (utf16 " hi there\n"))).head? = some 104 ∧
      isWhiteSpace 104 = false) ∧
    ((sanitizeInput (.str (utf16 " hi there\n"))).getLast? = some 101 ∧
      isWhiteSpace 101 = false) ∧
    sanitizeInput (.num ⟨false, 5, 0⟩) = [] :=
  ⟨List.length_replicate 2500 97,
   (sanitizeInput_bounded_trimmed (List.replicate 2500 97) .null).1,
   sanitizeInput_truncates,
   ⟨by decide,
    (sanitizeInput_bounded_trimmed (utf16 " hi there\n") .null).2.1 104 (by decide)⟩,
   ⟨by decide,
    (sanitizeInput_bounded_trimmed (utf16 " hi there\n") .null).2.2.1 101 (by decide)⟩,
   (sanitizeInput_bounded_trimmed [] (.num ⟨false, 5, 0⟩)).2.2.2 rfl⟩

/-- C12: for every string of at most 2000 code units that contains no `<`
(60), no `=` (61) and none of the shell metacharacters `;` `&` `|` backtick
`$` `(` `)` (59, 38, 124, 96, 36, 40, 41), `sanitizeInput` returns the text
with leading and trailing white space trimmed and nothing else changed. -/
theorem sanitizeInput_benign (text : JSString) (hlen : text.length ≤ 2000)
    (hlt : 60 ∉ text) (heq : 61 ∉ text)
    (hsh : ∀ c ∈ text,
      c ≠ 59 ∧ c ≠ 38 ∧ c ≠ 124 ∧ c ≠ 96 ∧ c ≠ 36 ∧ c ≠ 40 ∧ c ≠ 41) :
    sanitizeInput (.str text) = trim text := by
  have h := sanitizeString_benign text hlt heq (fun c hc => by
    obtain ⟨a1, a2, a3, a4, a5, a6, a7⟩ := hsh c hc
    simp [isShellMeta, a1, a2, a3, a4, a5, a6, a7])
  rw [List.take_of_length_le hlen] at h
  exact h

/-- A sentence with spaces around it comes out as the sentence. -/
theorem sanitizeInput_benign_witness :
    trim (utf16 "  I want to retire at 60, low risk please.\n")
      = utf16 "I want to retire at 60, low risk please." ∧
    sanitizeInput (.str (utf16 "  I want to retire at 60, low risk please.\n"))
      = trim (utf16 "  I want to retire at 60, low risk please.\n") :=
  ⟨by decide,
   sanitizeInput_benign (utf16 "  I want to retire at 60, low risk please.\n")
     (by decide) (by decide) (by decide) (by decide)⟩

/-! ## Properties of `runPrediction` -/

/-- The promise when the created process closes: the `close` handler. -/
theorem runPrediction_of_close (worker : JSString → WorkerOutcome) (text : JSString)
    (code : Option Int) (stdout stderr : JSString)
    (hs : spawn worker text = some (.close code stdout stderr)) :
    runPrediction worker text =
      if code ≠ some 0 then
        some (fallback (utf16 "Classification process failed"))
      else
        match JSONparse (trim stdout) with
        | some result => some result
        | none => some (fallback (utf16 "Failed to parse classification result")) := by
  unfold runPrediction
  rw [hs]

/-- The promise when the process could not be started: the `error` handler. -/
theorem runPrediction_of_error (worker : JSString → WorkerOutcome) (text : JSString)
    (hs : spawn worker text = some .error) :
    runPrediction worker text =
      some (fallback (utf16 "Failed to start classification process")) := by
  unfold runPrediction
  rw [hs]

/-- C2 as stated fails: a worker that exits with code 0 after writing the JSON
object `{"risk_profile":"Risky","confidence":0.9}` makes `runPrediction`
resolve with a `risk_profile` that is none of the three labels. -/
theorem runPrediction_risk_profile_counterexample :
    (runPrediction
        (workerClosing (some 0) "\x7b\"risk_profile\":\"Risky\",\"confidence\":0.9\x7d")
        (sanitizeInput (.str (utf16 "hello")))).map
      (fun c => isRiskProfile (c.get (utf16 "risk_profile"))) = some false := by
  decide

/-- C2, amended: for a text with which the process is created, the resolved
`risk_profile` is one of the three labels whenever the worker fails in one of
the three handled ways (error event, exit code other than 0, output that is
not JSON; the label is then `'Balanced'`), and whenever the worker closes with
code 0 after writing a JSON object whose own `risk_profile` is one of the three
labels (the result is then that object). -/
theorem runPrediction_risk_profile (worker : JSString → WorkerOutcome) (text : JSString) :
    (∀ o, spawn worker text = some o → o.failed = true →
      ∃ c, runPrediction worker text = some c ∧
        c.get (utf16 "risk_profile") = .str (utf16 "Balanced") ∧
        isRiskProfile (c.get (utf16 "risk_profile")) = true) ∧
    (∀ stdout stderr props, spawn worker text = some (.close (some 0) stdout stderr) →
      JSONparse (trim stdout) = some (.obj props) →
      isRiskProfile (lookupProp (utf16 "risk_profile") props) = true →
      ∃ c, runPrediction worker text = some c ∧ c = .obj props ∧
        isRiskProfile (c.get (utf16 "risk_profile")) = true) := by
  constructor
  · intro o hs hf
    cases o with
    | error =>
      rw [runPrediction_of_error worker text hs]
      exact ⟨_, rfl, rfl, by decide⟩
    | close code stdout stderr =>
      rw [runPrediction_of_close worker text code stdout stderr hs]
      by_cases hc : code = some 0
      · subst hc
        cases hp : JSONparse (trim stdout) with
        | none =>
          simp only [ne_eq, not_true_eq_false, if_false]
          exact ⟨_, rfl, rfl, by decide⟩
        | some v => simp [WorkerOutcome.failed, hp] at hf
      · simp only [ne_eq, hc, not_false_eq_true, if_true]
        exact ⟨_, rfl, rfl, by decide⟩
  · intro stdout stderr props hs hp hl
    rw [runPrediction_of_close worker text _ stdout stderr hs]
    simp only [ne_eq, not_true_eq_false, if_false, hp]
    exact ⟨_, rfl, rfl, hl⟩

/-- A worker killed by a signal (exit code `null`) gives `'Balanced'`; a worker
writing `{"risk_profile":"Aggressive"}` gives that object back. -/
theorem runPrediction_risk_profile_witness :
    (∃ c, runPrediction (workerClosing none "") (utf16 "hello") = some c ∧
      c.get (utf16 "risk_profile") = .str (utf16 "Balanced") ∧
      isRiskProfile (c.get (utf16 "risk_profile")) = true) ∧
    (∃ c, runPrediction (workerClosing (some 0) "\x7b\"risk_profile\":\"Aggressive\"\x7d")
        (utf16 "hello") = some c ∧
      c = .obj [(utf16 "risk_profile", .str (utf16 "Aggressive"))] ∧
      isRiskProfile (c.get (utf16 "risk_profile")) = true) :=
  ⟨(runPrediction_risk_profile (workerClosing none "") (utf16 "hello")).1
      (.close none (utf16 "") []) rfl (by decide),
   (runPrediction_risk_profile
      (workerClosing (some 0) "\x7b\"risk_profile\":\"Aggressive\"\x7d") (utf16 "hello")).2
      (utf16 "\x7b\"risk_profile\":\"Aggressive\"\x7d") []
      [(utf16 "risk_profile", .str (utf16 "Aggressive"))] rfl rfl (by decide)⟩

/-- C4: for every input text and every stdout content, a worker that closes
with an exit code different from 0 makes `runPrediction` resolve with exactly
`{risk_profile: 'Balanced', confidence: 0.33, error: 'Classification process failed'}`. -/
theorem runPrediction_nonzero_exit (worker : JSString → WorkerOutcome) (text : JSString)
    (code : Option Int) (stdout stderr : JSString)
    (hw : spawn worker text = some (.close code stdout stderr)) (hc : code ≠ some 0) :
    runPrediction worker text =
      some (.obj [(utf16 "risk_profile", .str (utf16 "Balanced")),
                  (utf16 "confidence", .num ⟨false, 33, -2⟩),
                  (utf16 "error", .str (utf16 "Classification process failed"))]) := by
  rw [runPrediction_of_close worker text code stdout stderr hw]
  simp only [ne_eq, hc, not_false_eq_true, if_true]
  rfl

/-- Exit code 1 with the valid JSON `{"risk_profile":"Aggressive"}` on stdout. -/
theorem runPrediction_nonzero_exit_witness :
    JSONparse (trim (utf16 "\x7b\"risk_profile\":\"Aggressive\"\x7d"))
      = some (.obj [(utf16 "risk_profile", .str (utf16 "Aggressive"))]) ∧
    runPrediction (workerClosing (some 1) "\x7b\"risk_profile\":\"Aggressive\"\x7d")
        (utf16 "hello") =
      some (.obj [(utf16 "risk_profile", .str (utf16 "Balanced")),
                  (utf16 "confidence", .num ⟨false, 33, -2⟩),
                  (utf16 "error", .str (utf16 "Classification process failed"))]) :=
  ⟨rfl, runPrediction_nonzero_exit _ (utf16 "hello") (some 1) _ [] rfl (by decide)⟩

/-- C5: for every input text, when the worker closes with exit code 0: if its
trimmed stdout is not valid JSON, `runPrediction` resolves with exactly
`{risk_profile: 'Balanced', confidence: 0.33, error: 'Failed to parse classification result'}`;
if it is valid JSON, with the parsed value itself. -/
theorem runPrediction_exit_zero (worker : JSString → WorkerOutcome) (text : JSString)
    (stdout stderr : JSString)
    (hw : spawn worker text = some (.close (some 0) stdout stderr)) :
    (JSONparse (trim stdout) = none →
      runPrediction worker text =
        some (.obj [(utf16 "risk_profile", .str (utf16 "Balanced")),
                    (utf16 "confidence", .num ⟨false, 33, -2⟩),
                    (utf16 "error", .str (utf16 "Failed to parse classification result"))])) ∧
    (∀ v, JSONparse (trim stdout) = some v → runPrediction worker text = some v) := by
  rw [runPrediction_of_close worker text _ stdout stderr hw]
  constructor
  · intro hp
    simp only [ne_eq, not_true_eq_false, if_false, hp]
    rfl
  · intro v hp
    simp only [ne_eq, not_true_eq_false, if_false, hp]

/-- The output `Traceback: boom` is not JSON and gives the fallback; the output
`{"risk_profile":"Aggressive","confidence":0.9}` followed by a line feed is
JSON after the trim and is returned as parsed. -/
theorem runPrediction_exit_zero_witness :
    runPrediction (workerClosing (some 0) "Traceback: boom") (utf16 "hello") =
      some (.obj [(utf16 "risk_profile", .str (utf16 "Balanced")),
                  (utf16 "confidence", .num ⟨false, 33, -2⟩),
                  (utf16 "error", .str (utf16 "Failed to parse classification result"))]) ∧
    runPrediction
        (workerClosing (some 0) "\x7b\"risk_profile\":\"Aggressive\",\"confidence\":0.9\x7d\n")
        (utf16 "hello") =
      some (.obj [(utf16 "risk_profile", .str (utf16 "Aggressive")),
                  (utf16 "confidence", .num ⟨false, 9, -1⟩)]) :=
  ⟨(runPrediction_exit_zero (workerClosing (some 0) "Traceback: boom") (utf16 "hello")
      _ [] rfl).1 rfl,
   (runPrediction_exit_zero
      (workerClosing (some 0) "\x7b\"risk_profile\":\"Aggressive\",\"confidence\":0.9\x7d\n")
      (utf16 "hello") _ [] rfl).2 _ rfl⟩

/-! ## Properties of the `POST /api/analyze` handler -/

/-- Reading `text` from a body that holds a string succeeds with that string. -/
theorem getProp_of_get_str {body : JSVal} {key s : JSString}
    (h : body.get key = .str s) : getProp body key = some (.str s) := by
  cases body <;> simp_all [getProp, JSVal.get]

/-- A successful property read gives the own property. -/
theorem getProp_eq_some {v w : JSVal} {key : JSString} (h : getProp v key = some w) :
    w = v.get key := by
  cases v <;> simp_all [getProp]

/-- The handler when `text` is not a non-empty string. -/
theorem analyze_of_invalid (env : Env) (body text : JSVal)
    (hg : getProp body (utf16 "text") = some text)
    (ht : (toBoolean text && isString text) = false) :
    analyze env body = (⟨400, errorBody (utf16 "Text input is required")⟩, []) := by
  unfold analyze
  rw [hg]
  have h1 : (!toBoolean text || !isString text) = true := by
    cases h : toBoolean text <;> cases h' : isString text <;> simp_all
  simp only [h1, if_true]

/-- A non-empty string is truthy. -/
theorem toBoolean_str {s : JSString} (hs : s ≠ []) : toBoolean (.str s) = true := by
  cases s with
  | nil => exact absurd rfl hs
  | cons c t => rfl

/-- The handler when the text sanitizes to the empty string. -/
theorem analyze_of_empty (env : Env) (body : JSVal) (s : JSString)
    (ht : body.get (utf16 "text") = .str s) (hs : s ≠ [])
    (hc : sanitizeInput (.str s) = []) :
    analyze env body = (⟨400, errorBody (utf16 "Invalid input after sanitization")⟩, []) := by
  unfold analyze
  rw [getProp_of_get_str ht]
  simp only [toBoolean_str hs, isString, hc, Bool.not_true, Bool.or_self, Bool.false_eq_true,
    if_false, List.isEmpty_nil, if_true]

/-- The handler, past the two input checks, for a text that is a string. -/
theorem analyze_of_valid (env : Env) (body : JSVal) (s : JSString)
    (ht : body.get (utf16 "text") = .str s) (hs : s ≠ [])
    (hc : sanitizeInput (.str s) ≠ []) :
    analyze env body =
      match runPrediction env.worker (sanitizeInput (.str s)) with
      | none => (internalError, [])
      | some classification =>
        match getProp classification (utf16 "risk_profile") with
        | none => (internalError, [.spawn (sanitizeInput (.str s))])
        | some key =>
          match env.findOne key with
          | none => (internalError, [.spawn (sanitizeInput (.str s)), .query key])
          | some portfolio =>
            (⟨200, .obj [(utf16 "risk_profile", classification.get (utf16 "risk_profile")),
                         (utf16 "confidence", classification.get (utf16 "confidence")),
                         (utf16 "portfolio", projectPortfolio portfolio),
                         (utf16 "warning", jsOr (classification.get (utf16 "warning")) .null),
                         (utf16 "error", jsOr (classification.get (utf16 "error")) .null)]⟩,
             [.spawn (sanitizeInput (.str s)), .query key]) := by
  unfold analyze
  rw [getProp_of_get_str ht]
  have h2 : (sanitizeInput (.str s)).isEmpty = false := by
    cases h : sanitizeInput (.str s) with
    | nil => exact absurd h hc
    | cons c t => rfl
  simp only [toBoolean_str hs, isString, h2, Bool.not_true, Bool.or_self, Bool.false_eq_true,
    if_false]

/-- A response with status 200 comes from a string `text` that passed both
checks, a promise that resolved with a classification whose `risk_profile`
could be read, and a query that did not reject; its body is the assembled
object. -/
theorem analyze_ok_inv (env : Env) (body : JSVal) (h : (analyze env body).1.status = 200) :
    ∃ s c p, body.get (utf16 "text") = .str s ∧
      runPrediction env.worker (sanitizeInput (.str s)) = some c ∧
      env.findOne (c.get (utf16 "risk_profile")) = some p ∧
      (analyze env body).1.body =
        .obj [(utf16 "risk_profile", c.get (utf16 "risk_profile")),
              (utf16 "confidence", c.get (utf16 "confidence")),
              (utf16 "portfolio", projectPortfolio p),
              (utf16 "warning", jsOr (c.get (utf16 "warning")) .null),
              (utf16 "error", jsOr (c.get (utf16 "error")) .null)] := by
  cases hg : getProp body (utf16 "text") with
  | none =>
    have h0 : analyze env body = (internalError, []) := by
      unfold analyze
      rw [hg]
    rw [h0] at h
    simp [internalError] at h
  | some text =>
    by_cases hv : (toBoolean text && isString text) = false
    · rw [analyze_of_invalid env body text hg hv] at h
      simp at h
    · cases text with
      | str s =>
        have ht : body.get (utf16 "text") = .str s := by
          cases body <;> simp_all [getProp]
        have hs : s ≠ [] := by
          intro h0
          subst h0
          exact hv rfl
        by_cases hc : sanitizeInput (.str s) = []
        · rw [analyze_of_empty env body s ht hs hc] at h
          simp at h
        · rw [analyze_of_valid env body s ht hs hc] at h ⊢
          cases hr : runPrediction env.worker (sanitizeInput (.str s)) with
          | none =>
            simp only [hr] at h
            simp [internalError] at h
          | some c =>
            simp only [hr] at h ⊢
            cases hk : getProp c (utf16 "risk_profile") with
            | none =>
              simp only [hk] at h
              simp [internalError] at h
            | some key =>
              simp only [hk] at h ⊢
              have hkey := getProp_eq_some hk
              cases hf : env.findOne key with
              | none =>
                simp only [hf] at h
                simp [internalError] at h
              | some p =>
                refine ⟨s, c, p, ht, hr, by rw [← hkey]; exact hf, ?_⟩
                simp only [hf]
      | undefined => exact absurd rfl hv
      | null => exact absurd rfl hv
      | bool b => exact absurd (by simp [isString]) hv
      | num n => exact absurd (by simp [isString]) hv
      | arr xs => exact absurd (by simp [isString]) hv
      | obj ps => exact absurd (by simp [isString]) hv

/-- A text holding the code unit U+0000 passes both checks and the sanitizer
unchanged; `spawn` throws, the promise rejects and the handler answers 500
without creating a process. -/
theorem analyze_text_with_nul :
    sanitizeInput (.str [97, 0, 98]) = [97, 0, 98] ∧
    analyze (seededEnv "null") (.obj [(utf16 "text", .str [97, 0, 98])]) =
      (⟨500, .obj [(utf16 "error", .str (utf16 "Internal server error"))]⟩, []) :=
  ⟨by decide, rfl⟩

/-- The five fields of an assembled response body, read back. -/
theorem response_fields (a b c d e : JSVal) :
    (JSVal.obj [(utf16 "risk_profile", a), (utf16 "confidence", b), (utf16 "portfolio", c),
        (utf16 "warning", d), (utf16 "error", e)]).get (utf16 "risk_profile") = a ∧
    (JSVal.obj [(utf16 "risk_profile", a), (utf16 "confidence", b), (utf16 "portfolio", c),
        (utf16 "warning", d), (utf16 "error", e)]).get (utf16 "confidence") = b ∧
    (JSVal.obj [(utf16 "risk_profile", a), (utf16 "confidence", b), (utf16 "portfolio", c),
        (utf16 "warning", d), (utf16 "error", e)]).get (utf16 "portfolio") = c ∧
    (JSVal.obj [(utf16 "risk_profile", a), (utf16 "confidence", b), (utf16 "portfolio", c),
        (utf16 "warning", d), (utf16 "error", e)]).get (utf16 "warning") = d ∧
    (JSVal.obj [(utf16 "risk_profile", a), (utf16 "confidence", b), (utf16 "portfolio", c),
        (utf16 "warning", d), (utf16 "error", e)]).get (utf16 "error") = e :=
  ⟨rfl, rfl, rfl, rfl, rfl⟩

/-- C3, at one input: the request `{text: 'hello'}` with a worker that exits
with code 0 after writing the JSON text `null`. The text passes both checks
(it sanitizes to `hello`), `runPrediction` resolves with `null`, reading
`classification.risk_profile` throws, and the handler answers 500
`{error: 'Internal server error'}` after spawning the worker and before any
store query. -/
theorem analyze_null_classification :
    sanitizeInput (.str (utf16 "hello")) = utf16 "hello" ∧
    JSONparse (trim (utf16 "null")) = some .null ∧
    analyze (seededEnv "null") (requestWith "hello") =
      (⟨500, .obj [(utf16 "error", .str (utf16 "Internal server error"))]⟩,
       [.spawn (utf16 "hello")]) :=
  ⟨by decide, rfl, rfl⟩

/-- C6: for every request body in which `text` is absent or is not a string, the
handler responds 400 `{error: 'Text input is required'}` and performs no
outside action (no worker is spawned, no store query is made). -/
theorem analyze_text_required (env : Env) (body : JSVal)
    (hu : body ≠ .undefined) (hn : body ≠ .null)
    (ht : isString (body.get (utf16 "text")) = false) :
    analyze env body =
      (⟨400, .obj [(utf16 "error", .str (utf16 "Text input is required"))]⟩, []) := by
  have hg : getProp body (utf16 "text") = some (body.get (utf16 "text")) := by
    cases body <;> simp_all [getProp]
  rw [analyze_of_invalid env body _ hg (by rw [ht, Bool.and_false])]
  rfl

/-- The empty body `{}` (text absent) and the body `{text: 5}` (not a string). -/
theorem analyze_text_required_witness :
    analyze (seededEnv "null") (.obj []) =
      (⟨400, .obj [(utf16 "error", .str (utf16 "Text input is required"))]⟩, []) ∧
    analyze (seededEnv "null") (.obj [(utf16 "text", .num ⟨false, 5, 0⟩)]) =
      (⟨400, .obj [(utf16 "error", .str (utf16 "Text input is required"))]⟩, []) :=
  ⟨analyze_text_required _ (.obj []) (by simp) (by simp) rfl,
   analyze_text_required _ (.obj [(utf16 "text", .num ⟨false, 5, 0⟩)]) (by simp) (by simp) rfl⟩

/-- C7: for every request whose `text` is a non-empty string that `sanitizeInput`
turns into the empty string, the handler responds 400
`{error: 'Invalid input after sanitization'}` and performs no outside action
(the worker is not spawned). -/
theorem analyze_empty_after_sanitization (env : Env) (body : JSVal) (s : JSString)
    (ht : body.get (utf16 "text") = .str s) (hs : s ≠ [])
    (hc : sanitizeInput (.str s) = []) :
    analyze env body =
      (⟨400, .obj [(utf16 "error", .str (utf16 "Invalid input after sanitization"))]⟩, []) := by
  rw [analyze_of_empty env body s ht hs hc]
  rfl

/-- A text that is only a script block; likewise only shell metacharacters and
only white space sanitize to the empty string. -/
theorem analyze_empty_after_sanitization_witness :
    sanitizeInput (.str (utf16 ";|$()")) = [] ∧ sanitizeInput (.str (utf16 " \n\t ")) = [] ∧
    analyze (seededEnv "null") (requestWith "<script>alert(1)</script>") =
      (⟨400, .obj [(utf16 "error", .str (utf16 "Invalid input after sanitization"))]⟩, []) :=
  ⟨by decide, by decide,
   analyze_empty_after_sanitization _ (requestWith "<script>alert(1)</script>")
     (utf16 "<script>alert(1)</script>") rfl (by decide) (by decide)⟩

/-- C8: for every 200 response, with `c` the classification and `p` the result
of the store lookup for key `c.risk_profile`: when a row is found, the
response's `portfolio` is exactly `{description, asset_allocation,
visualisation_color}` of that row, the allocation being its four values
unchanged; and `portfolio` is `null` if and only if no row is found. -/
theorem analyze_portfolio (env : Env) (body : JSVal)
    (h : (analyze env body).1.status = 200) :
    ∃ s c p, body.get (utf16 "text") = .str s ∧
      runPrediction env.worker (sanitizeInput (.str s)) = some c ∧
      env.findOne (c.get (utf16 "risk_profile")) = some p ∧
      (∀ row, p = some row →
        (analyze env body).1.body.get (utf16 "portfolio") =
          .obj [(utf16 "description", .str row.description),
                (utf16 "asset_allocation",
                  .obj [(utf16 "stocks", .num row.asset_allocation.stocks),
                        (utf16 "bonds", .num row.asset_allocation.bonds),
                        (utf16 "cash", .num row.asset_allocation.cash),
                        (utf16 "crypto", .num row.asset_allocation.crypto)]),
                (utf16 "visualisation_color", .str row.visualisation_color)]) ∧
      ((analyze env body).1.body.get (utf16 "portfolio") = .null ↔ p = none) := by
  obtain ⟨s, c, p, ht, hr, hf, hb⟩ := analyze_ok_inv env body h
  refine ⟨s, c, p, ht, hr, hf, ?_, ?_⟩
  · intro row hrow
    rw [hb, (response_fields _ _ _ _ _).2.2.1, hrow]
    rfl
  · rw [hb, (response_fields _ _ _ _ _).2.2.1]
    cases p with
    | none => simp [projectPortfolio]
    | some row => simp [projectPortfolio]

/-- The seeded store and a worker answering `Aggressive`: the response carries
the Aggressive row with stocks 70, bonds 10, cash 5, crypto 15; a worker
answering `Risky` finds no row and the response's `portfolio` is `null`. -/
theorem analyze_portfolio_witness :
    (analyze (seededEnv "\x7b\"risk_profile\":\"Aggressive\",\"confidence\":0.9\x7d")
        (requestWith "I want growth")).1.status = 200 ∧
    ((analyze (seededEnv "\x7b\"risk_profile\":\"Aggressive\",\"confidence\":0.9\x7d")
        (requestWith "I want growth")).1.body.get (utf16 "portfolio")).get
        (utf16 "asset_allocation") =
      .obj [(utf16 "stocks", .num ⟨false, 70, 0⟩), (utf16 "bonds", .num ⟨false, 10, 0⟩),
            (utf16 "cash", .num ⟨false, 5, 0⟩), (utf16 "crypto", .num ⟨false, 15, 0⟩)] ∧
    (analyze (seededEnv "\x7b\"risk_profile\":\"Risky\"\x7d")
        (requestWith "I want growth")).1.body.get (utf16 "portfolio") = .null ∧
    ∃ s c p, (requestWith "I want growth").get (utf16 "text") = .str s ∧
      runPrediction
          (seededEnv "\x7b\"risk_profile\":\"Aggressive\",\"confidence\":0.9\x7d").worker
          (sanitizeInput (.str s)) = some c ∧
      (seededEnv "\x7b\"risk_profile\":\"Aggressive\",\"confidence\":0.9\x7d").findOne
        (c.get (utf16 "risk_profile")) = some p ∧
      (∀ row, p = some row →
        (analyze (seededEnv "\x7b\"risk_profile\":\"Aggressive\",\"confidence\":0.9\x7d")
            (requestWith "I want growth")).1.body.get (utf16 "portfolio") =
          .obj [(utf16 "description", .str row.description),
                (utf16 "asset_allocation",
                  .obj [(utf16 "stocks", .num row.asset_allocation.stocks),
                        (utf16 "bonds", .num row.asset_allocation.bonds),
                        (utf16 "cash", .num row.asset_allocation.cash),
                        (utf16 "crypto", .num row.asset_allocation.crypto)]),
                (utf16 "visualisation_color", .str row.visualisation_color)]) ∧
      ((analyze (seededEnv "\x7b\"risk_profile\":\"Aggressive\",\"confidence\":0.9\x7d")
          (requestWith "I want growth")).1.body.get (utf16 "portfolio") = .null ↔ p = none) :=
  ⟨by decide, rfl, rfl,
   analyze_portfolio (seededEnv "\x7b\"risk_profile\":\"Aggressive\",\"confidence\":0.9\x7d")
     (requestWith "I want growth") (by decide)⟩

/-- C9 as stated fails: the worker writes
`{"risk_profile":"Balanced","confidence":0.5,"warning":""}`; the handler
responds 200, the classification holds the warning `''` (present, a string)
and the response holds `warning: null`. -/
theorem analyze_copies_classification_counterexample :
    (analyze
        (seededEnv "\x7b\"risk_profile\":\"Balanced\",\"confidence\":0.5,\"warning\":\"\"\x7d")
        (requestWith "hello")).1.status = 200 ∧
    (runPrediction
        (seededEnv
          "\x7b\"risk_profile\":\"Balanced\",\"confidence\":0.5,\"warning\":\"\"\x7d").worker
        (sanitizeInput (.str (utf16 "hello")))).map (fun c => c.get (utf16 "warning"))
      = some (.str []) ∧
    (analyze
        (seededEnv "\x7b\"risk_profile\":\"Balanced\",\"confidence\":0.5,\"warning\":\"\"\x7d")
        (requestWith "hello")).1.body.get (utf16 "warning") = .null ∧
    some ((analyze
        (seededEnv "\x7b\"risk_profile\":\"Balanced\",\"confidence\":0.5,\"warning\":\"\"\x7d")
        (requestWith "hello")).1.body.get (utf16 "warning")) ≠
      (runPrediction
        (seededEnv
          "\x7b\"risk_profile\":\"Balanced\",\"confidence\":0.5,\"warning\":\"\"\x7d").worker
        (sanitizeInput (.str (utf16 "hello")))).map (fun c => c.get (utf16 "warning")) := by
  refine ⟨by decide, rfl, rfl, ?_⟩
  intro h
  have h1 : some (JSVal.null : JSVal) = some (.str []) := h
  exact JSVal.noConfusion (Option.some.inj h1)

/-- C9, amended: in every 200 response, `risk_profile` and `confidence` are the
classification's own; `warning` is the classification's when that value is
truthy and `null` otherwise (absent, `null`, `false`, zero or the empty
string), and `error` likewise. -/
theorem analyze_copies_classification (env : Env) (body : JSVal)
    (h : (analyze env body).1.status = 200) :
    ∃ s c, body.get (utf16 "text") = .str s ∧
      runPrediction env.worker (sanitizeInput (.str s)) = some c ∧
      (analyze env body).1.body.get (utf16 "risk_profile") = c.get (utf16 "risk_profile") ∧
      (analyze env body).1.body.get (utf16 "confidence") = c.get (utf16 "confidence") ∧
      (analyze env body).1.body.get (utf16 "warning") =
        (if toBoolean (c.get (utf16 "warning")) = true then c.get (utf16 "warning") else .null) ∧
      (analyze env body).1.body.get (utf16 "error") =
        (if toBoolean (c.get (utf16 "error")) = true then c.get (utf16 "error") else .null) := by
  obtain ⟨s, c, p, ht, hr, _, hb⟩ := analyze_ok_inv env body h
  refine ⟨s, c, ht, hr, ?_, ?_, ?_, ?_⟩
  · rw [hb, (response_fields _ _ _ _ _).1]
  · rw [hb, (response_fields _ _ _ _ _).2.1]
  · rw [hb, (response_fields _ _ _ _ _).2.2.2.1]
    rfl
  · rw [hb, (response_fields _ _ _ _ _).2.2.2.2]
    rfl

/-- A worker writing a warning that is a non-empty string: the response carries
the four fields, the warning unchanged and the absent error as `null`. -/
theorem analyze_copies_classification_witness :
    (analyze
        (seededEnv
          "\x7b\"risk_profile\":\"Balanced\",\"confidence\":0.5,\"warning\":\"Low confidence\"\x7d")
        (requestWith "hello")).1.body =
      .obj [(utf16 "risk_profile", .str (utf16 "Balanced")),
            (utf16 "confidence", .num ⟨false, 5, -1⟩),
            (utf16 "portfolio", projectPortfolio (seedPortfolios.get? 1)),
            (utf16 "warning", .str (utf16 "Low confidence")),
            (utf16 "error", .null)] ∧
    ∃ s c, (requestWith "hello").get (utf16 "text") = .str s ∧
      runPrediction
        (seededEnv
          "\x7b\"risk_profile\":\"Balanced\",\"confidence\":0.5,\"warning\":\"Low confidence\"\x7d").worker
        (sanitizeInput (.str s)) = some c ∧
      (analyze
          (seededEnv
            "\x7b\"risk_profile\":\"Balanced\",\"confidence\":0.5,\"warning\":\"Low confidence\"\x7d")
          (requestWith "hello")).1.body.get (utf16 "risk_profile")
        = c.get (utf16 "risk_profile") ∧
      (analyze
          (seededEnv
            "\x7b\"risk_profile\":\"Balanced\",\"confidence\":0.5,\"warning\":\"Low confidence\"\x7d")
          (requestWith "hello")).1.body.get (utf16 "confidence")
        = c.get (utf16 "confidence") ∧
      (analyze
          (seededEnv
            "\x7b\"risk_profile\":\"Balanced\",\"confidence\":0.5,\"warning\":\"Low confidence\"\x7d")
          (requestWith "hello")).1.body.get (utf16 "warning") =
        (if toBoolean (c.get (utf16 "warning")) = true then c.get (utf16 "warning") else .null) ∧
      (analyze
          (seededEnv
            "\x7b\"risk_profile\":\"Balanced\",\"confidence\":0.5,\"warning\":\"Low confidence\"\x7d")
          (requestWith "hello")).1.body.get (utf16 "error") =
        (if toBoolean (c.get (utf16 "error")) = true then c.get (utf16 "error") else .null) :=
  ⟨rfl,
   analyze_copies_classification
     (seededEnv
       "\x7b\"risk_profile\":\"Balanced\",\"confidence\":0.5,\"warning\":\"Low confidence\"\x7d")
     (requestWith "hello") (by decide)⟩

end RoboAdvisor
